import Mathlib

/-!
Verification of the data-analyst agent (src/agent.py, src/executor.py,
src/llm.py) against its design specification.

The embedding is shallow: each Python function that the claims mention is
translated into an executable Lean definition over explicit state.  External
effects (the remote reasoning model, the user answering questions, the
semantics of a Python snippet run by exec) are parameters: oracles indexed by
call count, or a record describing the observable behaviour of one snippet.
-/

namespace DataAgent

/-! ## Dataset and the executor heap (src/executor.py)

A Dataset stands for the pandas DataFrame: a column list and a row list.
`CodeExecutor.execute` binds `df` in the snippet namespace to
`self.df.copy()`; to make the difference between a copy and an alias
observable we model mutable DataFrames as cells in a heap (`Nat → Dataset`)
and give the snippet access only to the cell named in its namespace. -/

structure Dataset where
  columns : List String
  rows : List (List String)
deriving DecidableEq, Repr

def Dataset.shape (d : Dataset) : Nat × Nat :=
  (d.rows.length, d.columns.length)

def updateHeap (h : Nat → Dataset) (r : Nat) (d : Dataset) : Nat → Dataset :=
  fun x => if x = r then d else h x

/-- State of a CodeExecutor instance (src/executor.py lines 33-38):
the canonical DataFrame (a heap cell), the artifact directory and its current
file listing, and the auto-save figure counter. -/
structure ExecutorState where
  heap : Nat → Dataset
  dfRef : Nat
  nextRef : Nat
  output_dir : String
  files : List String
  figure_counter : Nat

/-- Result of code execution (src/executor.py lines 21-27). -/
structure ExecutionResult where
  success : Bool
  output : String
  error : Option String := none
  figures : List String := []
deriving DecidableEq, Repr

/-- A Python exception as the executor reports it (type name, message,
traceback text). -/
structure PyExn where
  typeName : String
  msg : String
  trace : String
deriving DecidableEq, Repr

inductive SnipOutcome
  | normal
  | raise (e : PyExn)
deriving DecidableEq, Repr

/-- Observable behaviour of one model-authored snippet, the argument of
exec in src/executor.py line 87.  `newDf` is the final value of the DataFrame
cell bound in its namespace; `stdout` and `stderr` are the texts it writes to
the redirected streams (for a timed-out snippet, `stdout` is what was
buffered at abandonment); `writesFiles` are the paths it creates in the
artifact directory; `opensFigures` is the number of matplotlib figures it
leaves open; `timesOut` says whether it exceeds the wall-clock timeout. -/
structure SnipBehavior where
  newDf : Dataset → Dataset
  stdout : String
  stderr : String
  writesFiles : List String
  opensFigures : Nat
  outcome : SnipOutcome
  timesOut : Bool

/-- The glob pattern `*.png` as a filename test: the name ends with the four
characters of the extension. -/
def hasPngSuffix (f : String) : Bool :=
  f.data.reverse.take 4 == ['g', 'n', 'p', '.']

/-- src/executor.py lines 44-49, `_get_existing_figures`: the artifact
directory listing restricted by the glob pattern `*.png`. -/
def get_existing_figures (files : List String) : List String :=
  files.filter (fun f => hasPngSuffix f)

/-- Paths produced by the unsaved-figure auto-save loop
(src/executor.py lines 102-110): `figure_N.png` for a monotonically
incremented counter, joined to the artifact directory. -/
def autosavePaths (dir : String) (counter n : Nat) : List String :=
  match n with
  | 0 => []
  | m + 1 =>
      (dir ++ "/figure_" ++ toString (counter + 1) ++ ".png")
        :: autosavePaths dir (counter + 1) m

def insertSorted (x : String) : List String → List String
  | [] => [x]
  | y :: ys => if x ≤ y then x :: y :: ys else y :: insertSorted x ys

/-- The sorted builtin applied to a set of strings. -/
def sortStrings : List String → List String
  | [] => []
  | x :: xs => insertSorted x (sortStrings xs)

/-- src/executor.py lines 51-137, `CodeExecutor.execute`.

Order of operations follows the source: snapshot the png listing; reset the
plotting canvas; build a namespace whose `df` is a fresh heap cell holding a
copy of the canonical DataFrame; run the snippet on one worker under the
timeout with stdout and stderr redirected to buffers scoped to the call (the
stderr buffer is never read afterwards); then either return the timeout
failure with the buffered stdout, re-raise and package a runtime fault, or on
normal completion auto-save open figures, diff the png listing (set
difference, sorted) and return success. -/
def CodeExecutor.execute (snip : SnipBehavior) (timeout : Nat)
    (st : ExecutorState) : ExecutionResult × ExecutorState :=
  let figures_before := get_existing_figures st.files
  let copyRef := st.nextRef
  let heap1 := updateHeap st.heap copyRef (st.heap st.dfRef)
  let heap2 := updateHeap heap1 copyRef (snip.newDf (heap1 copyRef))
  let st1 : ExecutorState :=
    { st with heap := heap2, nextRef := st.nextRef + 1,
              files := st.files ++ snip.writesFiles }
  if snip.timesOut then
    (⟨false, snip.stdout,
      some ("Timeout: Code execution exceeded " ++ toString timeout ++ " seconds"),
      []⟩, st1)
  else
    match snip.outcome with
    | .raise e =>
        (⟨false, snip.stdout,
          some (e.typeName ++ ": " ++ e.msg ++ "\n" ++ e.trace), []⟩, st1)
    | .normal =>
        let saved := autosavePaths st1.output_dir st1.figure_counter snip.opensFigures
        let st2 : ExecutorState :=
          { st1 with figure_counter := st1.figure_counter + snip.opensFigures,
                     files := st1.files ++ saved }
        let figures_after := get_existing_figures st2.files
        let new_figures :=
          sortStrings ((figures_after.filter
            (fun f => !(figures_before.contains f))).dedup)
        (⟨true, snip.stdout, none, new_figures⟩, st2)

/-- src/executor.py lines 33-38, `CodeExecutor.__init__`: the canonical
DataFrame is loaded once into its own cell; the allocator starts past it. -/
def CodeExecutor.init (d : Dataset) (dir : String) : ExecutorState :=
  { heap := fun _ => d, dfRef := 0, nextRef := 1,
    output_dir := dir, files := [], figure_counter := 0 }

/-! ## Reasoning-client adapter (src/llm.py) -/

/-- A value in a tool invocation argument mapping: the tool schemas in
src/llm.py use strings (code, purpose, question, summary) and lists of
strings (visualizations). -/
inductive ToolVal
  | str (s : String)
  | strList (l : List String)
deriving DecidableEq, Repr

/-- A tool invocation argument mapping (JSON object, so keys are unique;
lookup takes the first binding). -/
abbrev ToolInput := List (String × ToolVal)

def lookupVal : List (String × ToolVal) → String → Option ToolVal
  | [], _ => none
  | (k, v) :: rest, key => if k = key then some v else lookupVal rest key

/-- tool_input.get(key, default) where the schema expects a string. -/
def getStr (inp : ToolInput) (key default : String) : String :=
  match lookupVal inp key with
  | some (.str s) => s
  | _ => default

/-- tool_input.get(key, []) where the schema expects a list of strings. -/
def getStrList (inp : ToolInput) (key : String) : List String :=
  match lookupVal inp key with
  | some (.strList l) => l
  | _ => []

/-- A content block of a model turn: free text or a tool invocation
(identifier, tool name, argument mapping). -/
inductive ContentBlock
  | text (s : String)
  | toolUse (id name : String) (input : List (String × ToolVal))
deriving DecidableEq, Repr

/-- A model turn: ordered content blocks plus the completion signal. -/
structure Response where
  content : List ContentBlock
  stop_reason : String
deriving DecidableEq, Repr

/-- src/llm.py lines 151-164, `LLMClient.extract_text`: concatenate the text
blocks, joined by newlines. -/
def extract_text (r : Response) : String :=
  String.intercalate "\n"
    (r.content.filterMap (fun b =>
      match b with
      | .text s => some s
      | .toolUse _ _ _ => none))

/-- src/llm.py lines 133-149, `LLMClient.extract_tool_use`: the
(id, name, input) triples of the tool_use blocks, in order. -/
def extract_tool_use (r : Response) : List (String × String × ToolInput) :=
  r.content.filterMap (fun b =>
    match b with
    | .text _ => none
    | .toolUse id name input => some (id, name, input))

/-- A tool_result content part (src/llm.py lines 166-187,
`LLMClient.format_tool_result`). -/
structure ToolResult where
  tool_use_id : String
  content : String
  is_error : Bool
deriving DecidableEq, Repr

/-- Outcome of one transport attempt inside `LLMClient.send_message`:
a response, one of the two caught exception classes, or an exception the
retry loop does not catch. -/
inductive ApiOutcome
  | ok (r : Response)
  | rateLimitError
  | apiError
  | otherError (e : String)

/-- What a call of `send_message` does after the retry loop: return a
response, re-raise one of the caught exception classes after exhausting
retries, propagate an uncaught exception, or fall off the loop returning
None (only possible when max_retries = 0). -/
inductive SendOutcome
  | success (r : Response)
  | raisedRateLimit
  | raisedApi
  | raisedOther (e : String)
  | noneReturned
deriving Repr

/-- Trace of one `send_message` call: its outcome, how many transport
attempts it made, and the sleep durations (in order) before each retry. -/
structure SendTrace where
  result : SendOutcome
  attempts : Nat
  sleeps : List Nat

/-- src/llm.py lines 110-131, the body of `LLMClient.send_message`, at loop
variable attempt = a.  On a transient failure with attempt below
max_retries - 1 it sleeps 2 ^ attempt and retries; on the last attempt it
re-raises. -/
def sendFrom (transport : Nat → ApiOutcome) (max_retries : Nat) (a : Nat) :
    SendTrace :=
  if a < max_retries then
    match transport a with
    | .ok r => ⟨.success r, 1, []⟩
    | .rateLimitError =>
        if a < max_retries - 1 then
          let t := sendFrom transport max_retries (a + 1)
          ⟨t.result, t.attempts + 1, 2 ^ a :: t.sleeps⟩
        else ⟨.raisedRateLimit, 1, []⟩
    | .apiError =>
        if a < max_retries - 1 then
          let t := sendFrom transport max_retries (a + 1)
          ⟨t.result, t.attempts + 1, 2 ^ a :: t.sleeps⟩
        else ⟨.raisedApi, 1, []⟩
    | .otherError e => ⟨.raisedOther e, 1, []⟩
  else ⟨.noneReturned, 0, []⟩
termination_by max_retries - a

/-- src/llm.py lines 94-131, `LLMClient.send_message`: the retry loop started
at attempt 0.  The transport oracle gives the result of the a-th
`client.messages.create` call. -/
def send_message (transport : Nat → ApiOutcome) (max_retries : Nat) :
    SendTrace :=
  sendFrom transport max_retries 0

/-! ## Orchestrator (src/agent.py)

`DataAnalystAgent.run` is a while loop, embedded below as recursion on the
remaining iteration budget (fuel = max_iterations - iteration, the exact
while condition).  Its collaborators are oracles: `llm i` is what the i-th
`send_message` call yields (a response, or the exception it raises),
`execRes i` is the ExecutionResult of the i-th `executor.execute` call, and
`ask i` is what the user answers to the i-th clarifying question. -/

/-- A message of the conversation list self.messages: the initial user text,
an assistant turn carrying a model turn content, or a user turn carrying
tool results. -/
inductive Message
  | userText (s : String)
  | assistantTurn (content : List ContentBlock)
  | userResults (results : List ToolResult)
deriving DecidableEq, Repr

/-- A call the agent makes on its presenter (src/presenter.py collaborator),
recorded in order: progress text, a code execution display, a clarifying
question, the final results display, a warning, or an error. -/
inductive Event
  | thinking (s : String)
  | codeExecution (code purpose : String) (res : ExecutionResult)
  | question (q : String)
  | resultsShown (summary : String) (figures : List String)
  | warning (s : String)
  | error (s : String)
deriving DecidableEq, Repr

/-- Mutable state of a `DataAnalystAgent.run` call: the conversation, the
tracked figure paths, the presenter call log, how many reasoning-client
requests were issued so far and the conversation snapshot passed to each,
and the executor / question call counters (indices into the oracles). -/
structure RunState where
  messages : List Message
  figures : List String
  events : List Event
  requestCount : Nat
  sentConvs : List (List Message)
  execCount : Nat
  askCount : Nat
deriving Repr

/-- The external collaborators of one run, as oracles indexed by call
count. -/
structure Env where
  llm : Nat → Except String Response
  execRes : Nat → ExecutionResult
  ask : Nat → String

def pushEvent (st : RunState) (e : Event) : RunState :=
  { st with events := st.events ++ [e] }

/-- src/agent.py lines 144-172, `_handle_execute_code`: run the snippet via
the executor, display it, track its figures, and format the result text for
the model. -/
def handle_execute_code (env : Env) (inp : ToolInput) (st : RunState) :
    String × RunState :=
  let code := getStr inp "code" ""
  let purpose := getStr inp "purpose" "Execute code"
  let res := env.execRes st.execCount
  let st := pushEvent { st with execCount := st.execCount + 1 }
    (.codeExecution code purpose res)
  let st := { st with figures := st.figures ++ res.figures }
  if res.success then
    let response :=
      if res.output ≠ "" then "Output:\n" ++ res.output
      else "Code executed successfully (no output)."
    let response :=
      if res.figures ≠ [] then
        response ++ "\n\nGenerated figures: " ++ String.intercalate ", " res.figures
      else response
    (response, st)
  else
    ("Error:\n" ++ (match res.error with | some e => e | none => "None"), st)

/-- src/agent.py lines 174-185, `_handle_ask_question`. -/
def handle_ask_question (env : Env) (inp : ToolInput) (st : RunState) :
    String × RunState :=
  let question := getStr inp "question" ""
  let answer := env.ask st.askCount
  let st := pushEvent { st with askCount := st.askCount + 1 } (.question question)
  ("User response: " ++ answer, st)

/-- src/agent.py lines 187-204, `_handle_present_results`: merge the
invocation visualizations with the tracked figures (Python list(set(..));
the set is modelled as first-occurrence dedup), display, and confirm. -/
def handle_present_results (inp : ToolInput) (st : RunState) :
    String × RunState :=
  let summary := getStr inp "summary" ""
  let visualizations := getStrList inp "visualizations"
  let all_figures := (visualizations ++ st.figures).dedup
  let st := pushEvent st (.resultsShown summary all_figures)
  ("Results presented successfully.", st)

/-- src/agent.py lines 125-142, `_handle_tool_call`: dispatch on the tool
name, with the unknown-tool fallback. -/
def handle_tool_call (env : Env) (name : String) (inp : ToolInput)
    (st : RunState) : String × RunState :=
  if name = "execute_code" then handle_execute_code env inp st
  else if name = "ask_clarifying_question" then handle_ask_question env inp st
  else if name = "present_results" then handle_present_results inp st
  else ("Error: Unknown tool \x27" ++ name ++ "\x27", st)

/-- src/agent.py lines 84-103, the per-turn tool loop: call the handler for
each invocation in order and build exactly one tool result per invocation; a
present_results invocation records its summary argument as the final
summary. -/
def processToolUses (env : Env) (tus : List (String × String × ToolInput))
    (st : RunState) (fs : Option String) :
    List ToolResult × RunState × Option String :=
  match tus with
  | [] => ([], st, fs)
  | (id, name, inp) :: rest =>
      let hres := handle_tool_call env name inp st
      let tr_fs : ToolResult × Option String :=
        if name = "present_results" then
          (⟨id, "Results presented to user.", false⟩, some (getStr inp "summary" ""))
        else if name = "ask_clarifying_question" then
          (⟨id, hres.1, false⟩, fs)
        else
          (⟨id, hres.1, hres.1.startsWith "Error:"⟩, fs)
      let out := processToolUses env rest hres.2 tr_fs.2
      (tr_fs.1 :: out.1, out.2.1, out.2.2)

/-- How the while loop of src/agent.py lines 54-113 ended: the model
finished naturally with its text (line 72), a present_results summary was
recorded (line 112), the send_message call raised (line 61), or the
iteration budget ran out (the while condition). -/
inductive ExitKind
  | natural (text : String)
  | presented (summary : String)
  | clientFailure (e : String)
  | budget
deriving DecidableEq, Repr

/-- Result of the while loop: the final_summary variable, how the loop
ended, the final value of the iteration counter, and the state. -/
structure LoopResult where
  finalSummary : Option String
  exitKind : ExitKind
  iteration : Nat
  state : RunState

/-- src/agent.py lines 56-60: the per-iteration progress display followed by
the request bookkeeping for the send_message call (the conversation snapshot
it receives, and the request counter). -/
def preRequest (max_iterations iteration : Nat) (st : RunState) : RunState :=
  let st := pushEvent st (.thinking
    ("Thinking... (iteration " ++ toString iteration ++ "/"
      ++ toString max_iterations ++ ")"))
  { st with sentConvs := st.sentConvs ++ [st.messages],
            requestCount := st.requestCount + 1 }

/-- src/agent.py lines 66-68: surface the text content when non-empty. -/
def noteText (text : String) (st : RunState) : RunState :=
  if text ≠ "" then pushEvent st (.thinking text) else st

/-- src/agent.py lines 77-109: append the assistant turn, process each tool
invocation of the turn, and append the single user turn carrying all the
tool results; yields the final_summary variable and the new state. -/
def toolTurn (env : Env) (r : Response) (fs : Option String)
    (st : RunState) : Option String × RunState :=
  let st := { st with messages := st.messages ++ [.assistantTurn r.content] }
  let out := processToolUses env (extract_tool_use r) st fs
  (out.2.2, { out.2.1 with messages := out.2.1.messages ++ [.userResults out.1] })

/-- src/agent.py lines 54-113, the main agent loop, as recursion on
fuel = max_iterations - iteration (so fuel > 0 is the while condition).
Each pass increments the counter, requests a turn (an exception breaks with
an error display), surfaces the text, terminates on a tool-free end_turn,
otherwise runs the tool turn and breaks if a summary was recorded. -/
def loop (env : Env) (max_iterations : Nat) :
    Nat → Nat → Option String → RunState → LoopResult
  | 0, iteration, fs, st => ⟨fs, .budget, iteration, st⟩
  | fuel + 1, iteration, fs, st =>
      let iteration := iteration + 1
      let response := env.llm st.requestCount
      let st := preRequest max_iterations iteration st
      match response with
      | .error e =>
          ⟨fs, .clientFailure e, iteration,
            pushEvent st (.error ("API Error: " ++ e))⟩
      | .ok r =>
          let text_content := extract_text r
          let st := noteText text_content st
          if extract_tool_use r = [] ∧ r.stop_reason = "end_turn" then
            ⟨some (if text_content = "" then "Analysis complete." else text_content),
              .natural text_content, iteration, st⟩
          else
            let tt := toolTurn env r fs st
            match tt.1 with
            | some s => ⟨some s, .presented s, iteration, tt.2⟩
            | none => loop env max_iterations fuel iteration none tt.2

/-- What `run` returns, with the loop trace kept for the statements. -/
structure RunResult where
  summary : String
  exitKind : ExitKind
  iteration : Nat
  state : RunState

/-- The initial user message of src/agent.py lines 37-43 (df_info is the
`get_dataframe_info` text, abstracted as an input). -/
def initialMessage (df_info query : String) : String :=
  "I have loaded a CSV file for analysis. Here is information about the data:\n\n"
    ++ df_info ++ "\n\nUser query: " ++ query
    ++ "\n\nPlease analyze this data to answer the user\x27s question. Start by understanding the data, then write and execute code to perform the analysis."

/-- Python truthiness of `x or default` on an optional string: None and the
empty string both fall through to the default. -/
def orElseTruthy (fs : Option String) (default : String) : String :=
  match fs with
  | some s => if s = "" then default else s
  | none => default

/-- State at the start of a run, after the initial user message is appended
(src/agent.py lines 45-48). -/
def initState (df_info query : String) : RunState :=
  { messages := [.userText (initialMessage df_info query)],
    figures := [], events := [], requestCount := 0,
    sentConvs := [], execCount := 0, askCount := 0 }

/-- src/agent.py lines 24-123, `DataAnalystAgent.run`: seed the conversation
with the initial user message, run the loop with the full budget, then apply
the max-iterations fallback (with its warning) and the final
`final_summary or "No results generated."`. -/
def run (env : Env) (max_iterations : Nat) (df_info query : String) :
    RunResult :=
  let lr := loop env max_iterations max_iterations 0 none (initState df_info query)
  let post : Option String × RunState :=
    if max_iterations ≤ lr.iteration ∧ lr.finalSummary = none then
      (some "Analysis incomplete - maximum iterations reached.",
        pushEvent lr.state (.warning
          ("Reached maximum iterations (" ++ toString max_iterations
            ++ "). Presenting partial results.")))
    else (lr.finalSummary, lr.state)
  ⟨orElseTruthy post.1 "No results generated.", lr.exitKind, lr.iteration, post.2⟩

/-! ## Theorems about the Execution Sandbox -/

/-- Helper: updating the fresh copy cell does not touch the canonical
cell. -/
theorem updateHeap_ne (h : Nat → Dataset) (r x : Nat) (d : Dataset)
    (hx : x ≠ r) : updateHeap h r d x = h x := by
  simp [updateHeap, hx]

/-- C3: code execution never mutates the canonical Dataset: execute binds
the snippet to a fresh copy cell, so for every snippet (including any that
adds or removes columns or rows on its bound copy) the canonical cell, its
shape and its column set are unchanged for the next invocation. -/
theorem c3_dataset_isolation (snip : SnipBehavior) (timeout : Nat)
    (st : ExecutorState) (h : st.dfRef ≠ st.nextRef) :
    ((CodeExecutor.execute snip timeout st).2).dfRef = st.dfRef ∧
    ((CodeExecutor.execute snip timeout st).2).heap
        ((CodeExecutor.execute snip timeout st).2).dfRef = st.heap st.dfRef ∧
    (((CodeExecutor.execute snip timeout st).2).heap
        ((CodeExecutor.execute snip timeout st).2).dfRef).shape
      = (st.heap st.dfRef).shape ∧
    (((CodeExecutor.execute snip timeout st).2).heap
        ((CodeExecutor.execute snip timeout st).2).dfRef).columns
      = (st.heap st.dfRef).columns := by
  cases hb : snip.timesOut with
  | true => simp [CodeExecutor.execute, hb, updateHeap, h]
  | false =>
      cases ho : snip.outcome with
      | normal => simp [CodeExecutor.execute, hb, ho, updateHeap, h]
      | raise e => simp [CodeExecutor.execute, hb, ho, updateHeap, h]

/-- A dataset used in the concrete witnesses: 3 rows, columns
name, age, salary (the scenario of the specification). -/
def dsEx : Dataset :=
  { columns := ["name", "age", "salary"],
    rows := [["ann", "31", "10"], ["bob", "45", "20"], ["cyd", "28", "30"]] }

def stEx : ExecutorState := CodeExecutor.init dsEx "output"

/-- A snippet that appends a column and drops a row on its bound copy. -/
def snipMut : SnipBehavior :=
  { newDf := fun d => { columns := d.columns ++ ["bonus"], rows := d.rows.tail },
    stdout := "", stderr := "", writesFiles := [], opensFigures := 0,
    outcome := .normal, timesOut := false }

theorem c3_dataset_isolation_witness :
    stEx.dfRef ≠ stEx.nextRef ∧
    (((CodeExecutor.execute snipMut 30 stEx).2).dfRef = stEx.dfRef ∧
     ((CodeExecutor.execute snipMut 30 stEx).2).heap
         ((CodeExecutor.execute snipMut 30 stEx).2).dfRef = stEx.heap stEx.dfRef ∧
     (((CodeExecutor.execute snipMut 30 stEx).2).heap
         ((CodeExecutor.execute snipMut 30 stEx).2).dfRef).shape
       = (stEx.heap stEx.dfRef).shape ∧
     (((CodeExecutor.execute snipMut 30 stEx).2).heap
         ((CodeExecutor.execute snipMut 30 stEx).2).dfRef).columns
       = (stEx.heap stEx.dfRef).columns) :=
  ⟨by decide, c3_dataset_isolation snipMut 30 stEx (by decide)⟩

/-- C4: a snippet exceeding the timeout yields success = false, output equal
to exactly the stdout buffered before abandonment, and an error string
naming the timeout; execute returns this result rather than raising. -/
theorem c4_timeout_result (snip : SnipBehavior) (timeout : Nat)
    (st : ExecutorState) (h : snip.timesOut = true) :
    (CodeExecutor.execute snip timeout st).1.success = false ∧
    (CodeExecutor.execute snip timeout st).1.output = snip.stdout ∧
    (CodeExecutor.execute snip timeout st).1.error
      = some ("Timeout: Code execution exceeded " ++ toString timeout ++ " seconds") := by
  simp [CodeExecutor.execute, h]

/-- A snippet that prints partial output and then overruns the timeout. -/
def snipSlow : SnipBehavior :=
  { newDf := fun d => d, stdout := "partial", stderr := "noise",
    writesFiles := [], opensFigures := 0, outcome := .normal, timesOut := true }

theorem c4_timeout_result_witness :
    snipSlow.timesOut = true ∧
    ((CodeExecutor.execute snipSlow 30 stEx).1.success = false ∧
     (CodeExecutor.execute snipSlow 30 stEx).1.output = snipSlow.stdout ∧
     (CodeExecutor.execute snipSlow 30 stEx).1.error
       = some ("Timeout: Code execution exceeded " ++ toString 30 ++ " seconds")) :=
  ⟨rfl, c4_timeout_result snipSlow 30 stEx rfl⟩

/-- C9: the output field of the result is exactly the stdout text on every path
(success, runtime fault, timeout), and the whole result of execute is
independent of what the snippet writes to stderr: the stderr buffer is
discarded. -/
theorem c9_stderr_discarded (snip : SnipBehavior) (timeout : Nat)
    (st : ExecutorState) (s : String) :
    (CodeExecutor.execute snip timeout st).1.output = snip.stdout ∧
    CodeExecutor.execute { snip with stderr := s } timeout st
      = CodeExecutor.execute snip timeout st := by
  refine ⟨?_, rfl⟩
  cases hb : snip.timesOut with
  | true => simp [CodeExecutor.execute, hb]
  | false =>
      cases ho : snip.outcome with
      | normal => simp [CodeExecutor.execute, hb, ho]
      | raise e => simp [CodeExecutor.execute, hb, ho]

/-- A snippet that writes exactly one new file that is not a png. -/
def snipTxt : SnipBehavior :=
  { newDf := fun d => d, stdout := "", stderr := "",
    writesFiles := ["output/data.txt"], opensFigures := 0,
    outcome := .normal, timesOut := false }

/-- C5 counterexample: the listing that execute diffs is the `*.png` glob,
not the full directory listing, so a successful snippet that writes exactly
one new file (here output/data.txt, not pre-existing) yields zero artifact
paths, refuting the claim that it yields exactly one. -/
theorem c5_counterexample :
    snipTxt.writesFiles = ["output/data.txt"] ∧
    stEx.files.contains "output/data.txt" = false ∧
    (CodeExecutor.execute snipTxt 30 stEx).1.success = true ∧
    (CodeExecutor.execute snipTxt 30 stEx).1.figures.length ≠ 1 := by
  refine ⟨rfl, rfl, rfl, ?_⟩
  have h : (CodeExecutor.execute snipTxt 30 stEx).1.figures = [] := by decide
  simp [h]

/-- C5 (amended): for every successful (non-timeout, fault-free) execution,
the artifact list equals the sorted set difference of the post-execution
`*.png` listing of the artifact directory minus its pre-execution `*.png`
listing; a snippet that writes exactly one new png file (and leaves no
figure open) yields exactly that one path, independent of the pre-existing
files. -/
theorem c5_artifact_diff (snip : SnipBehavior) (timeout : Nat)
    (st : ExecutorState) (hT : snip.timesOut = false)
    (hO : snip.outcome = .normal) :
    (CodeExecutor.execute snip timeout st).1.figures
      = sortStrings (((get_existing_figures
          ((CodeExecutor.execute snip timeout st).2.files)).filter
            (fun f => !((get_existing_figures st.files).contains f))).dedup) ∧
    (∀ p, snip.writesFiles = [p] → hasPngSuffix p = true →
      st.files.contains p = false → snip.opensFigures = 0 →
      (CodeExecutor.execute snip timeout st).1.figures = [p]) := by
  constructor
  · simp [CodeExecutor.execute, hT, hO]
  · intro p hw hpng hpre hfig
    have hnotmem : p ∉ st.files := by simpa using hpre
    have h1 : get_existing_figures (st.files ++ [p])
        = get_existing_figures st.files ++ [p] := by
      simp [get_existing_figures, List.filter_append, hpng]
    have h2 : List.filter (fun f => !decide (f ∈ get_existing_figures st.files))
        (get_existing_figures st.files) = [] := by
      rw [List.filter_eq_nil_iff]
      intro a ha
      simp [ha]
    have h3 : List.filter (fun f => !decide (f ∈ get_existing_figures st.files))
        [p] = [p] := by
      have hp : p ∉ get_existing_figures st.files := fun hm =>
        hnotmem (List.mem_of_mem_filter hm)
      simp [hp]
    simp [CodeExecutor.execute, hT, hO, hw, hfig, autosavePaths, h1,
      List.filter_append, h2, h3, sortStrings, insertSorted]

/-- A snippet that writes exactly one new png file. -/
def snipPng : SnipBehavior :=
  { newDf := fun d => d, stdout := "done", stderr := "",
    writesFiles := ["output/plot.png"], opensFigures := 0,
    outcome := .normal, timesOut := false }

theorem c5_artifact_diff_witness :
    snipPng.timesOut = false ∧ snipPng.outcome = .normal ∧
    ((CodeExecutor.execute snipPng 30 stEx).1.figures
      = sortStrings (((get_existing_figures
          ((CodeExecutor.execute snipPng 30 stEx).2.files)).filter
            (fun f => !((get_existing_figures stEx.files).contains f))).dedup) ∧
    (∀ p, snipPng.writesFiles = [p] → hasPngSuffix p = true →
      stEx.files.contains p = false → snipPng.opensFigures = 0 →
      (CodeExecutor.execute snipPng 30 stEx).1.figures = [p])) :=
  ⟨rfl, rfl, c5_artifact_diff snipPng 30 stEx rfl rfl⟩

/-! ## Theorems about the reasoning-client retry loop -/

/-- The two exception classes the retry loop catches. -/
def isTransient (o : ApiOutcome) : Prop :=
  o = .rateLimitError ∨ o = .apiError

instance (o : ApiOutcome) : Decidable (isTransient o) := by
  unfold isTransient
  cases o
  case ok r => exact .isFalse (by intro h; rcases h with h | h <;> cases h)
  case rateLimitError => exact .isTrue (Or.inl rfl)
  case apiError => exact .isTrue (Or.inr rfl)
  case otherError e => exact .isFalse (by intro h; rcases h with h | h <;> cases h)

/-- Helper: K transient attempts from position a, then a success, give the
success with K + 1 attempts and doubling sleeps starting at 2 ^ a. -/
theorem sendFrom_ok (transport : Nat → ApiOutcome) (max_retries : Nat)
    (r : Response) :
    ∀ K a, a + K < max_retries →
      (∀ i, a ≤ i → i < a + K → isTransient (transport i)) →
      transport (a + K) = .ok r →
      sendFrom transport max_retries a
        = ⟨.success r, K + 1, (List.range K).map (fun j => 2 ^ (a + j))⟩ := by
  intro K
  induction K with
  | zero =>
      intro a hlt _ hok
      rw [sendFrom]
      rw [if_pos (by omega)]
      simp only [Nat.add_zero] at hok
      rw [hok]
      simp
  | succ K ih =>
      intro a hlt htr hok
      have ha : isTransient (transport a) := htr a le_rfl (by omega)
      have hrange : (List.range (K + 1)).map (fun j => 2 ^ (a + j))
          = 2 ^ a :: (List.range K).map (fun j => 2 ^ (a + 1 + j)) := by
        rw [List.range_succ_eq_map]
        simp only [List.map_cons, List.map_map, Nat.add_zero]
        have harith : ∀ j, a + 1 + j = a + (j + 1) := by omega
        simp [Function.comp_def, harith]
      have hrec : sendFrom transport max_retries (a + 1)
          = ⟨.success r, K + 1, (List.range K).map (fun j => 2 ^ (a + 1 + j))⟩ := by
        apply ih
        · omega
        · intro i h1 h2
          exact htr i (by omega) (by omega)
        · have : a + 1 + K = a + (K + 1) := by omega
          rw [this, hok]
      rcases ha with ha | ha
      · rw [sendFrom, if_pos (show a < max_retries by omega), ha]
        dsimp only
        rw [if_pos (show a < max_retries - 1 by omega), hrec, hrange]
      · rw [sendFrom, if_pos (show a < max_retries by omega), ha]
        dsimp only
        rw [if_pos (show a < max_retries - 1 by omega), hrec, hrange]

/-- Helper: when every attempt up to the bound is transient, the loop ends
by re-raising the caught exception. -/
theorem sendFrom_exhaust (transport : Nat → ApiOutcome) (max_retries : Nat) :
    ∀ n a, max_retries - a = n + 1 →
      (∀ i, i < max_retries → isTransient (transport i)) →
      (sendFrom transport max_retries a).result = .raisedRateLimit ∨
      (sendFrom transport max_retries a).result = .raisedApi := by
  intro n
  induction n with
  | zero =>
      intro a hn htr
      have ha : isTransient (transport a) := htr a (by omega)
      rcases ha with ha | ha
      · rw [sendFrom, if_pos (show a < max_retries by omega), ha]
        dsimp only
        rw [if_neg (show ¬a < max_retries - 1 by omega)]
        exact Or.inl rfl
      · rw [sendFrom, if_pos (show a < max_retries by omega), ha]
        dsimp only
        rw [if_neg (show ¬a < max_retries - 1 by omega)]
        exact Or.inr rfl
  | succ n ih =>
      intro a hn htr
      have ha : isTransient (transport a) := htr a (by omega)
      have hrec := ih (a + 1) (by omega) htr
      rcases ha with ha | ha
      · rw [sendFrom, if_pos (show a < max_retries by omega), ha]
        dsimp only
        rw [if_pos (show a < max_retries - 1 by omega)]
        exact hrec
      · rw [sendFrom, if_pos (show a < max_retries by omega), ha]
        dsimp only
        rw [if_pos (show a < max_retries - 1 by omega)]
        exact hrec

/-- C7: for K below the retry bound, K consecutive transient transport
failures followed by a success make send_message perform exactly K + 1
attempts, return that success, and sleep 1, 2, 4, ... (doubling per attempt,
starting at one time unit) before the retries; and when every attempt up to
the bound fails transiently, send_message re-raises instead of retrying
further. -/
theorem c7_retry_backoff (transport : Nat → ApiOutcome)
    (max_retries K : Nat) (r : Response) :
    (K < max_retries → (∀ i, i < K → isTransient (transport i)) →
      transport K = .ok r →
      send_message transport max_retries
        = ⟨.success r, K + 1, (List.range K).map (fun j => 2 ^ j)⟩) ∧
    (1 ≤ max_retries → (∀ i, i < max_retries → isTransient (transport i)) →
      (send_message transport max_retries).result = .raisedRateLimit ∨
      (send_message transport max_retries).result = .raisedApi) := by
  constructor
  · intro hK htr hok
    have := sendFrom_ok transport max_retries r K 0 (by omega)
      (fun i h1 h2 => htr i (by omega)) (by simpa using hok)
    simpa using this
  · intro h1 htr
    exact sendFrom_exhaust transport max_retries (max_retries - 1) 0 (by omega) htr

/-- A simple model turn used by the retry witnesses. -/
def respEx : Response :=
  { content := [.text "done"], stop_reason := "end_turn" }

/-- Transport failing transiently twice, then succeeding. -/
def transportEx (i : Nat) : ApiOutcome :=
  if i < 2 then .rateLimitError else .ok respEx

/-- Transport failing transiently on every attempt. -/
def transportDown (_ : Nat) : ApiOutcome := .apiError

theorem c7_retry_backoff_witness :
    (2 < 3 ∧ (∀ i, i < 2 → isTransient (transportEx i)) ∧
      transportEx 2 = .ok respEx ∧
      send_message transportEx 3
        = ⟨.success respEx, 2 + 1, (List.range 2).map (fun j => 2 ^ j)⟩) ∧
    (1 ≤ 3 ∧ (∀ i, i < 3 → isTransient (transportDown i)) ∧
      ((send_message transportDown 3).result = .raisedRateLimit ∨
       (send_message transportDown 3).result = .raisedApi)) :=
  ⟨⟨by decide, by decide, rfl,
      (c7_retry_backoff transportEx 3 2 respEx).1 (by decide) (by decide) rfl⟩,
   ⟨by decide, by decide,
      (c7_retry_backoff transportDown 3 2 respEx).2 (by decide) (by decide)⟩⟩

/-! ## Theorems about the Orchestrator loop -/

/-- Whether a presenter call is the error display. -/
def isErrorEvent : Event → Bool
  | .error _ => true
  | _ => false

/-- Identifiers of the tool invocations inside a turn content, in order. -/
def toolUseIds (bs : List ContentBlock) : List String :=
  bs.filterMap (fun b =>
    match b with
    | .text _ => none
    | .toolUse id _ _ => some id)

/-- The conversation protocol invariant of the specification: every
assistant turn is immediately followed by a user turn made of tool results
whose identifiers are exactly the identifiers of the tool invocations of the
assistant turn, in order (so each invocation is answered exactly once). -/
def WF : List Message → Prop
  | [] => True
  | .userText _ :: rest => WF rest
  | .userResults _ :: rest => WF rest
  | .assistantTurn bs :: rest =>
      (match rest with
       | .userResults rs :: _ => rs.map ToolResult.tool_use_id = toolUseIds bs
       | _ => False) ∧ WF rest

/-- What the final_summary variable holds after the per-turn tool loop: the
summary argument of the last present_results invocation, if any. -/
def recordedSummary (tus : List (String × String × ToolInput))
    (fs : Option String) : Option String :=
  tus.foldl (fun acc t =>
    if t.2.1 = "present_results" then some (getStr t.2.2 "summary" "") else acc) fs

/-- Frame of one tool-call dispatch: the handlers touch only the events,
figures and call counters, and the events they add are never the error
display. -/
theorem handle_tool_call_state (env : Env) (name : String) (inp : ToolInput)
    (st : RunState) :
    (handle_tool_call env name inp st).2.messages = st.messages ∧
    (handle_tool_call env name inp st).2.sentConvs = st.sentConvs ∧
    (handle_tool_call env name inp st).2.requestCount = st.requestCount ∧
    (∀ e ∈ (handle_tool_call env name inp st).2.events,
      e ∈ st.events ∨ isErrorEvent e = false) := by
  simp only [handle_tool_call, handle_execute_code, handle_ask_question,
    handle_present_results, pushEvent]
  split_ifs <;>
    refine ⟨rfl, rfl, rfl, ?_⟩ <;>
    intro e he <;>
    simp only [List.mem_append, List.mem_singleton] at he <;>
    first
      | exact Or.inl he
      | (rcases he with he | he
         · exact Or.inl he
         · subst he; exact Or.inr rfl)

/-- Frame of the per-turn tool loop: same components as for one dispatch. -/
theorem processToolUses_state (env : Env)
    (tus : List (String × String × ToolInput)) :
    ∀ (st : RunState) (fs : Option String),
    (processToolUses env tus st fs).2.1.messages = st.messages ∧
    (processToolUses env tus st fs).2.1.sentConvs = st.sentConvs ∧
    (processToolUses env tus st fs).2.1.requestCount = st.requestCount ∧
    (∀ e ∈ (processToolUses env tus st fs).2.1.events,
      e ∈ st.events ∨ isErrorEvent e = false) := by
  induction tus with
  | nil => intro st fs; exact ⟨rfl, rfl, rfl, fun e he => Or.inl he⟩
  | cons t rest ih =>
      intro st fs
      obtain ⟨id, name, inp⟩ := t
      obtain ⟨h1, h2, h3, h4⟩ := handle_tool_call_state env name inp st
      simp only [processToolUses]
      obtain ⟨g1, g2, g3, g4⟩ := ih (handle_tool_call env name inp st).2
        ((if name = "present_results" then
            ((⟨id, "Results presented to user.", false⟩ : ToolResult),
              some (getStr inp "summary" ""))
          else if name = "ask_clarifying_question" then
            (⟨id, (handle_tool_call env name inp st).1, false⟩, fs)
          else
            (⟨id, (handle_tool_call env name inp st).1,
              (handle_tool_call env name inp st).1.startsWith "Error:"⟩, fs)).2)
      refine ⟨?_, ?_, ?_, ?_⟩
      · exact g1.trans h1
      · exact g2.trans h2
      · exact g3.trans h3
      · intro e he
        rcases g4 e he with hin | hne
        · exact h4 e hin
        · exact Or.inr hne

/-- The per-turn tool loop produces exactly one tool result per invocation,
carrying its identifier, in order. -/
theorem processToolUses_ids (env : Env)
    (tus : List (String × String × ToolInput)) :
    ∀ (st : RunState) (fs : Option String),
    (processToolUses env tus st fs).1.map ToolResult.tool_use_id
      = tus.map (fun t => t.1) := by
  induction tus with
  | nil => intro st fs; rfl
  | cons t rest ih =>
      intro st fs
      obtain ⟨id, name, inp⟩ := t
      simp only [processToolUses, List.map_cons]
      split_ifs <;>
        exact congrArg (fun l => id :: l) (ih _ _)

/-- The per-turn tool loop records the summary argument of the last
present_results invocation into final_summary. -/
theorem processToolUses_fs (env : Env)
    (tus : List (String × String × ToolInput)) :
    ∀ (st : RunState) (fs : Option String),
    (processToolUses env tus st fs).2.2 = recordedSummary tus fs := by
  have unfoldRS : ∀ (l : List (String × String × ToolInput)) (a : Option String),
      recordedSummary l a = l.foldl (fun acc t =>
        if t.2.1 = "present_results" then some (getStr t.2.2 "summary" "")
        else acc) a := fun l a => rfl
  induction tus with
  | nil => intro st fs; rfl
  | cons t rest ih =>
      intro st fs
      obtain ⟨id, name, inp⟩ := t
      simp only [processToolUses, unfoldRS, List.foldl_cons]
      split_ifs <;> simp only [unfoldRS] at ih <;> exact ih _ _

@[simp] theorem pushEvent_messages (st : RunState) (e : Event) :
    (pushEvent st e).messages = st.messages := rfl

@[simp] theorem pushEvent_requestCount (st : RunState) (e : Event) :
    (pushEvent st e).requestCount = st.requestCount := rfl

@[simp] theorem pushEvent_sentConvs (st : RunState) (e : Event) :
    (pushEvent st e).sentConvs = st.sentConvs := rfl

@[simp] theorem pushEvent_events (st : RunState) (e : Event) :
    (pushEvent st e).events = st.events ++ [e] := rfl

@[simp] theorem preRequest_messages (m i : Nat) (st : RunState) :
    (preRequest m i st).messages = st.messages := rfl

@[simp] theorem preRequest_requestCount (m i : Nat) (st : RunState) :
    (preRequest m i st).requestCount = st.requestCount + 1 := rfl

@[simp] theorem preRequest_sentConvs (m i : Nat) (st : RunState) :
    (preRequest m i st).sentConvs = st.sentConvs ++ [st.messages] := rfl

theorem preRequest_events (m i : Nat) (st : RunState) :
    (preRequest m i st).events = st.events ++
      [.thinking ("Thinking... (iteration " ++ toString i ++ "/"
        ++ toString m ++ ")")] := rfl

@[simp] theorem noteText_messages (t : String) (st : RunState) :
    (noteText t st).messages = st.messages := by
  unfold noteText; split_ifs <;> rfl

@[simp] theorem noteText_requestCount (t : String) (st : RunState) :
    (noteText t st).requestCount = st.requestCount := by
  unfold noteText; split_ifs <;> rfl

@[simp] theorem noteText_sentConvs (t : String) (st : RunState) :
    (noteText t st).sentConvs = st.sentConvs := by
  unfold noteText; split_ifs <;> rfl

theorem noteText_events (t : String) (st : RunState) :
    ∀ e ∈ (noteText t st).events, e ∈ st.events ∨ e = .thinking t := by
  unfold noteText
  split_ifs with h
  · intro e he
    simp only [pushEvent_events, List.mem_append, List.mem_singleton] at he
    exact he
  · exact fun e he => Or.inl he

/-- Frame of a whole tool turn: the new conversation is the old one with the
assistant turn and the matching user results turn appended; the request
counter and the sent snapshots are untouched; no error event is added. -/
theorem toolTurn_state (env : Env) (r : Response) (fs : Option String)
    (st : RunState) :
    (toolTurn env r fs st).2.messages
      = st.messages ++ [.assistantTurn r.content,
          .userResults (processToolUses env (extract_tool_use r)
            { st with messages := st.messages ++ [.assistantTurn r.content] } fs).1] ∧
    (toolTurn env r fs st).2.sentConvs = st.sentConvs ∧
    (toolTurn env r fs st).2.requestCount = st.requestCount ∧
    (∀ e ∈ (toolTurn env r fs st).2.events,
      e ∈ st.events ∨ isErrorEvent e = false) := by
  obtain ⟨h1, h2, h3, h4⟩ := processToolUses_state env (extract_tool_use r)
    { st with messages := st.messages ++ [.assistantTurn r.content] } fs
  refine ⟨?_, ?_, ?_, ?_⟩
  · show (processToolUses env _ _ _).2.1.messages ++ _ = _
    rw [h1]
    simp
  · exact h2
  · exact h3
  · exact h4

/-- Characterization of the loop result when entered (as run always does)
with final_summary = None: the summary variable is determined by how the
loop ended, and budget exhaustion consumes exactly the fuel. -/
theorem loop_spec (env : Env) (maxI : Nat) :
    ∀ fuel iter st,
    (∀ t, (loop env maxI fuel iter none st).exitKind = .natural t →
      (loop env maxI fuel iter none st).finalSummary
        = some (if t = "" then "Analysis complete." else t)) ∧
    (∀ s, (loop env maxI fuel iter none st).exitKind = .presented s →
      (loop env maxI fuel iter none st).finalSummary = some s) ∧
    (∀ e, (loop env maxI fuel iter none st).exitKind = .clientFailure e →
      (loop env maxI fuel iter none st).finalSummary = none) ∧
    ((loop env maxI fuel iter none st).exitKind = .budget →
      (loop env maxI fuel iter none st).finalSummary = none ∧
      (loop env maxI fuel iter none st).iteration = iter + fuel) := by
  intro fuel
  induction fuel with
  | zero =>
      intro iter st
      exact ⟨fun t h => ExitKind.noConfusion h,
             fun s h => ExitKind.noConfusion h,
             fun e h => ExitKind.noConfusion h,
             fun _ => ⟨rfl, (Nat.add_zero iter).symm⟩⟩
  | succ fuel ih =>
      intro iter st
      rw [loop]
      cases hllm : env.llm st.requestCount with
      | error e =>
          exact ⟨fun t h => ExitKind.noConfusion h,
                 fun s h => ExitKind.noConfusion h,
                 fun e h => rfl,
                 fun h => ExitKind.noConfusion h⟩
      | ok r =>
          dsimp only
          by_cases hc : extract_tool_use r = [] ∧ r.stop_reason = "end_turn"
          · rw [if_pos hc]
            exact ⟨fun t h => by cases h; rfl,
                   fun s h => ExitKind.noConfusion h,
                   fun e h => ExitKind.noConfusion h,
                   fun h => ExitKind.noConfusion h⟩
          · rw [if_neg hc]
            cases hfs : (toolTurn env r none
                (noteText (extract_text r) (preRequest maxI (iter + 1) st))).1 with
            | some s => exact ⟨fun t h => ExitKind.noConfusion h,
                               fun s2 h => by cases h; rfl,
                               fun e h => ExitKind.noConfusion h,
                               fun h => ExitKind.noConfusion h⟩
            | none => exact ⟨(ih _ _).1, (ih _ _).2.1, (ih _ _).2.2.1,
                             fun h => ⟨((ih _ _).2.2.2 h).1,
                               by rw [((ih _ _).2.2.2 h).2]; omega⟩⟩

/-- C1: run never raises: it is a total function into summary strings, and
every run resolves to one of the four terminal outcomes, each of which
yields a (non-empty) summary string: the natural-completion text (or its
placeholder), the present_results summary (or the no-results placeholder
when that summary is empty), the budget-exhausted placeholder, or, on an
unrecoverable client failure, the no-results placeholder (the
budget placeholder when the failure hits the final iteration). -/
theorem c1_run_total (env : Env) (maxI : Nat) (df_info query : String) :
    (run env maxI df_info query).summary ≠ "" ∧
    (∀ t, (run env maxI df_info query).exitKind = .natural t →
      (run env maxI df_info query).summary
        = (if t = "" then "Analysis complete." else t)) ∧
    (∀ s, (run env maxI df_info query).exitKind = .presented s →
      (run env maxI df_info query).summary
        = (if s = "" then "No results generated." else s)) ∧
    (∀ e, (run env maxI df_info query).exitKind = .clientFailure e →
      (run env maxI df_info query).summary
        = (if maxI ≤ (run env maxI df_info query).iteration
           then "Analysis incomplete - maximum iterations reached."
           else "No results generated.")) ∧
    ((run env maxI df_info query).exitKind = .budget →
      (run env maxI df_info query).summary
        = "Analysis incomplete - maximum iterations reached.") := by
  obtain ⟨s1, s2, s3, s4⟩ := loop_spec env maxI maxI 0 (initState df_info query)
  simp only [run]
  cases hk : (loop env maxI maxI 0 none (initState df_info query)).exitKind with
  | natural t =>
      have hfs := s1 t hk
      rw [hfs]
      simp only [Option.some_ne_none, and_false, if_false, orElseTruthy]
      by_cases ht : t = "" <;> simp [ht]
  | presented s =>
      have hfs := s2 s hk
      rw [hfs]
      simp only [Option.some_ne_none, and_false, if_false, orElseTruthy]
      by_cases hs : s = "" <;> simp [hs]
  | clientFailure e =>
      have hfs := s3 e hk
      rw [hfs]
      by_cases hi : maxI ≤ (loop env maxI maxI 0 none (initState df_info query)).iteration
      · simp [hi, orElseTruthy]
      · simp [hi, orElseTruthy]
  | budget =>
      obtain ⟨hfs, hit⟩ := s4 hk
      rw [hfs]
      have hi : maxI ≤ (loop env maxI maxI 0 none (initState df_info query)).iteration := by
        omega
      simp [hi, orElseTruthy]

theorem WF_append (l l' : List Message) (h : WF l) (h' : WF l') :
    WF (l ++ l') := by
  induction l with
  | nil => simpa using h'
  | cons m rest ih =>
      cases m with
      | userText s => exact ih h
      | userResults rs => exact ih h
      | assistantTurn bs =>
          obtain ⟨hm, hr⟩ := h
          cases rest with
          | nil => exact absurd hm (by simp)
          | cons m2 rest2 =>
              cases m2 with
              | userText s => exact absurd hm (by simp)
              | assistantTurn bs2 => exact absurd hm (by simp)
              | userResults rs => exact ⟨hm, ih hr⟩

/-- The invocation identifiers a model turn content carries are the
identifiers of its extracted tool uses. -/
theorem extract_tool_use_ids (r : Response) :
    (extract_tool_use r).map (fun t => t.1) = toolUseIds r.content := by
  show (r.content.filterMap _).map _ = _
  generalize r.content = bs
  induction bs with
  | nil => rfl
  | cons b rest ih => cases b <;> simp [toolUseIds] <;> simpa [toolUseIds] using ih

/-- The loop preserves the protocol invariant on the conversation and on
every conversation snapshot handed to the reasoning client. -/
theorem loop_WF (env : Env) (maxI : Nat) :
    ∀ fuel iter fs st,
    WF st.messages → (∀ c ∈ st.sentConvs, WF c) →
    WF (loop env maxI fuel iter fs st).state.messages ∧
    ∀ c ∈ (loop env maxI fuel iter fs st).state.sentConvs, WF c := by
  intro fuel
  induction fuel with
  | zero => intro iter fs st h1 h2; exact ⟨h1, h2⟩
  | succ fuel ih =>
      intro iter fs st h1 h2
      have hconvs : ∀ c ∈ st.sentConvs ++ [st.messages], WF c := by
        intro c hc
        rcases List.mem_append.mp hc with hc | hc
        · exact h2 c hc
        · rw [List.mem_singleton.mp hc]; exact h1
      rw [loop]
      cases henv : env.llm st.requestCount with
      | error e => exact ⟨h1, hconvs⟩
      | ok r =>
          dsimp only
          by_cases hc : extract_tool_use r = [] ∧ r.stop_reason = "end_turn"
          · rw [if_pos hc]
            refine ⟨?_, ?_⟩
            · show WF ((noteText _ (preRequest maxI (iter + 1) st)).messages)
              simpa using h1
            · show ∀ c ∈ (noteText _ (preRequest maxI (iter + 1) st)).sentConvs, WF c
              simpa using hconvs
          · rw [if_neg hc]
            obtain ⟨tm, tc, _, _⟩ := toolTurn_state env r fs
              (noteText (extract_text r) (preRequest maxI (iter + 1) st))
            have hWF2 : WF (toolTurn env r fs
                (noteText (extract_text r) (preRequest maxI (iter + 1) st))).2.messages := by
              rw [tm]
              simp only [noteText_messages, preRequest_messages]
              refine WF_append _ _ h1 ?_
              refine ⟨?_, trivial⟩
              show (processToolUses env (extract_tool_use r) _ fs).1.map
                ToolResult.tool_use_id = toolUseIds r.content
              rw [processToolUses_ids, extract_tool_use_ids]
            have hconvs2 : ∀ c ∈ (toolTurn env r fs
                (noteText (extract_text r) (preRequest maxI (iter + 1) st))).2.sentConvs,
                WF c := by
              rw [tc]
              simpa using hconvs
            cases hfs : (toolTurn env r fs
                (noteText (extract_text r) (preRequest maxI (iter + 1) st))).1 with
            | some s => exact ⟨hWF2, hconvs2⟩
            | none => exact ih _ _ _ hWF2 hconvs2

/-- C2: in every run, each assistant turn appended to the conversation is
immediately followed by a single user turn containing exactly one tool
result per tool invocation of the assistant turn, carrying its identifier;
this holds of the final conversation and of every conversation snapshot
passed to the reasoning client (so also before any further request, and also
when a present_results invocation ends the loop). -/
theorem c2_protocol_invariant (env : Env) (maxI : Nat) (df_info query : String) :
    WF (run env maxI df_info query).state.messages ∧
    ∀ c ∈ (run env maxI df_info query).state.sentConvs, WF c := by
  obtain ⟨h1, h2⟩ := loop_WF env maxI maxI 0 none (initState df_info query)
    (by simp [WF, initState])
    (by intro c hc; simp [initState] at hc)
  simp only [run]
  by_cases hcond : maxI ≤ (loop env maxI maxI 0 none (initState df_info query)).iteration ∧
      (loop env maxI maxI 0 none (initState df_info query)).finalSummary = none
  · rw [if_pos hcond]
    exact ⟨h1, h2⟩
  · rw [if_neg hcond]
    exact ⟨h1, h2⟩

theorem recordedSummary_no_present
    (tus : List (String × String × ToolInput)) :
    ∀ fs, (∀ t ∈ tus, t.2.1 ≠ "present_results") →
    recordedSummary tus fs = fs := by
  induction tus with
  | nil => intro fs _; rfl
  | cons t rest ih =>
      intro fs h
      have ht : t.2.1 ≠ "present_results" := h t (List.mem_cons_self t rest)
      show recordedSummary rest (if t.2.1 = "present_results"
        then some (getStr t.2.2 "summary" "") else fs) = fs
      rw [if_neg ht]
      exact ih fs (fun t2 h2 => h t2 (List.mem_cons_of_mem t h2))

/-- The final_summary a tool turn yields is the recorded summary of the
extracted invocations. -/
theorem toolTurn_fs (env : Env) (r : Response) (fs : Option String)
    (st : RunState) :
    (toolTurn env r fs st).1 = recordedSummary (extract_tool_use r) fs := by
  show (processToolUses env _ _ _).2.2 = _
  rw [processToolUses_fs]

theorem events_chain {l1 l2 l3 : List Event}
    (h12 : ∀ e ∈ l2, e ∈ l1 ∨ isErrorEvent e = false)
    (h23 : ∀ e ∈ l3, e ∈ l2 ∨ isErrorEvent e = false) :
    ∀ e ∈ l3, e ∈ l1 ∨ isErrorEvent e = false := fun e he =>
  (h23 e he).elim (fun hm => h12 e hm) Or.inr

theorem preRequest_events_ok (m i : Nat) (st : RunState) :
    ∀ e ∈ (preRequest m i st).events, e ∈ st.events ∨ isErrorEvent e = false := by
  rw [preRequest_events]
  intro e he
  rcases List.mem_append.mp he with hm | hm
  · exact Or.inl hm
  · rw [List.mem_singleton.mp hm]; exact Or.inr rfl

theorem noteText_events_ok (t : String) (st : RunState) :
    ∀ e ∈ (noteText t st).events, e ∈ st.events ∨ isErrorEvent e = false := by
  intro e he
  rcases noteText_events t st e he with hm | hm
  · exact Or.inl hm
  · rw [hm]; exact Or.inr rfl

/-- Under a model that always requests more code execution, the loop burns
its whole fuel, records no summary, makes exactly one request per fuel unit,
and shows no error display. -/
theorem loop_c6 (env : Env) (maxI : Nat)
    (h : ∀ i, ∃ r, env.llm i = .ok r ∧ extract_tool_use r ≠ [] ∧
      ∀ t ∈ extract_tool_use r, t.2.1 = "execute_code") :
    ∀ fuel iter st,
    (loop env maxI fuel iter none st).exitKind = .budget ∧
    (loop env maxI fuel iter none st).finalSummary = none ∧
    (loop env maxI fuel iter none st).state.requestCount
      = st.requestCount + fuel ∧
    (∀ e ∈ (loop env maxI fuel iter none st).state.events,
      e ∈ st.events ∨ isErrorEvent e = false) := by
  intro fuel
  induction fuel with
  | zero =>
      intro iter st
      exact ⟨rfl, rfl, (Nat.add_zero _).symm, fun e he => Or.inl he⟩
  | succ fuel ih =>
      intro iter st
      obtain ⟨r, hok, hne, hall⟩ := h st.requestCount
      rw [loop, hok]
      dsimp only
      rw [if_neg (fun hcc => hne hcc.1)]
      have htt1 : (toolTurn env r none
          (noteText (extract_text r) (preRequest maxI (iter + 1) st))).1 = none := by
        rw [toolTurn_fs]
        exact recordedSummary_no_present _ none
          (fun t ht => by rw [hall t ht]; intro hx; exact absurd hx (by decide))
      rw [htt1]
      obtain ⟨i1, i2, i3, i4⟩ := ih (iter + 1)
        (toolTurn env r none (noteText (extract_text r) (preRequest maxI (iter + 1) st))).2
      obtain ⟨_, _, trc, tev⟩ := toolTurn_state env r none
        (noteText (extract_text r) (preRequest maxI (iter + 1) st))
      refine ⟨i1, i2, ?_, ?_⟩
      · rw [i3, trc]
        simp only [noteText_requestCount, preRequest_requestCount]
        omega
      · refine events_chain ?_ i4
        refine events_chain ?_ tev
        exact events_chain (preRequest_events_ok maxI (iter + 1) st)
          (noteText_events_ok (extract_text r) (preRequest maxI (iter + 1) st))

/-- C6: with a model that always requests further execution, a run with
budget N issues at most N reasoning-client requests, terminates with the
fixed incomplete placeholder, and this outcome is shown as a warning while
no error display happens. -/
theorem c6_budget_enforcement (env : Env) (maxI : Nat) (df_info query : String)
    (h : ∀ i, ∃ r, env.llm i = .ok r ∧ extract_tool_use r ≠ [] ∧
      ∀ t ∈ extract_tool_use r, t.2.1 = "execute_code") :
    (run env maxI df_info query).state.requestCount ≤ maxI ∧
    (run env maxI df_info query).summary
      = "Analysis incomplete - maximum iterations reached." ∧
    Event.warning ("Reached maximum iterations (" ++ toString maxI
        ++ "). Presenting partial results.")
      ∈ (run env maxI df_info query).state.events ∧
    ∀ e ∈ (run env maxI df_info query).state.events, isErrorEvent e = false := by
  obtain ⟨l1, l2, l3, l4⟩ := loop_c6 env maxI h maxI 0 (initState df_info query)
  have hit : (loop env maxI maxI 0 none (initState df_info query)).iteration
      = 0 + maxI :=
    ((loop_spec env maxI maxI 0 (initState df_info query)).2.2.2 l1).2
  simp only [run]
  rw [if_pos ⟨by omega, l2⟩]
  refine ⟨?_, rfl, ?_, ?_⟩
  · show (pushEvent _ _).requestCount ≤ maxI
    rw [pushEvent_requestCount, l3]
    simp [initState]
  · show _ ∈ (pushEvent _ _).events
    rw [pushEvent_events]
    exact List.mem_append.mpr (Or.inr (List.mem_singleton.mpr rfl))
  · intro e he
    rw [pushEvent_events] at he
    rcases List.mem_append.mp he with hm | hm
    · rcases l4 e hm with hold | hne
      · simp [initState] at hold
      · exact hne
    · rw [List.mem_singleton.mp hm]; rfl

/-- A model turn that only requests code execution. -/
def respExec : Response :=
  { content := [.toolUse "t1" "execute_code"
      [("code", .str "df.head()"), ("purpose", .str "inspect")]],
    stop_reason := "tool_use" }

/-- An environment whose model always requests more execution. -/
def envExec : Env :=
  { llm := fun _ => .ok respExec,
    execRes := fun _ => { success := true, output := "ok" },
    ask := fun _ => "" }

theorem c6_budget_enforcement_witness :
    (∀ i, ∃ r, envExec.llm i = .ok r ∧ extract_tool_use r ≠ [] ∧
      ∀ t ∈ extract_tool_use r, t.2.1 = "execute_code") ∧
    ((run envExec 2 "info" "q").state.requestCount ≤ 2 ∧
     (run envExec 2 "info" "q").summary
       = "Analysis incomplete - maximum iterations reached." ∧
     Event.warning ("Reached maximum iterations (" ++ toString 2
         ++ "). Presenting partial results.")
       ∈ (run envExec 2 "info" "q").state.events ∧
     ∀ e ∈ (run envExec 2 "info" "q").state.events, isErrorEvent e = false) :=
  ⟨fun i => ⟨respExec, rfl, by decide, by decide⟩,
   c6_budget_enforcement envExec 2 "info" "q"
     (fun i => ⟨respExec, rfl, by decide, by decide⟩)⟩

theorem toolTurn_requestCount (env : Env) (r : Response) (fs : Option String)
    (st : RunState) :
    (toolTurn env r fs st).2.requestCount = st.requestCount :=
  (toolTurn_state env r fs st).2.2.1

theorem toolTurn_messages (env : Env) (r : Response) (fs : Option String)
    (st : RunState) :
    (toolTurn env r fs st).2.messages
      = st.messages ++ [.assistantTurn r.content,
          .userResults (processToolUses env (extract_tool_use r)
            { st with messages := st.messages ++ [.assistantTurn r.content] } fs).1] :=
  (toolTurn_state env r fs st).1

/-- C8 (amended): when the first model turn records a present_results
invocation (with s the summary argument of the last such invocation in the
turn), the run issues exactly one reasoning-client request, and its final
output is s when s is non-empty and the fixed no-results placeholder when s
is the empty string. -/
theorem c8_single_shot (env : Env) (maxI : Nat) (df_info query : String)
    (r : Response) (s : String)
    (hm : 1 ≤ maxI)
    (h0 : env.llm 0 = .ok r)
    (hp : recordedSummary (extract_tool_use r) none = some s) :
    (run env maxI df_info query).state.requestCount = 1 ∧
    (run env maxI df_info query).summary
      = (if s = "" then "No results generated." else s) := by
  obtain ⟨m, rfl⟩ : ∃ m, maxI = m + 1 := ⟨maxI - 1, by omega⟩
  have hne : extract_tool_use r ≠ [] := by
    intro hnil
    rw [hnil] at hp
    exact Option.noConfusion hp
  have h0' : env.llm (initState df_info query).requestCount = .ok r := h0
  have hloop : loop env (m + 1) (m + 1) 0 none (initState df_info query)
      = ⟨some s, .presented s, 0 + 1,
          (toolTurn env r none (noteText (extract_text r)
            (preRequest (m + 1) (0 + 1) (initState df_info query)))).2⟩ := by
    rw [loop, h0']
    dsimp only
    rw [if_neg (fun hcc => hne hcc.1)]
    simp only [toolTurn_fs, hp]
  simp only [run, hloop]
  rw [if_neg (fun hcc => Option.noConfusion hcc.2)]
  refine ⟨?_, rfl⟩
  rw [toolTurn_requestCount, noteText_requestCount, preRequest_requestCount]
  simp [initState]

/-- The first model turn of the empty-summary counterexample: a single
present_results invocation whose summary argument is the empty string. -/
def respPresentEmpty : Response :=
  { content := [.toolUse "p1" "present_results" [("summary", .str "")]],
    stop_reason := "tool_use" }

def envPresentEmpty : Env :=
  { llm := fun _ => .ok respPresentEmpty,
    execRes := fun _ => { success := true, output := "" },
    ask := fun _ => "" }

/-- C8 counterexample: the first model turn contains a present_results
invocation whose summary argument is the empty string; the run still issues
exactly one request, but its final output is the no-results placeholder, not
the (empty) summary argument, because the final Python
`final_summary or ...` treats the empty string as falsy. -/
theorem c8_counterexample :
    (("p1", "present_results", [("summary", ToolVal.str "")])
        ∈ extract_tool_use respPresentEmpty) ∧
    getStr [("summary", ToolVal.str "")] "summary" "" = "" ∧
    (run envPresentEmpty 5 "info" "q").state.requestCount = 1 ∧
    (run envPresentEmpty 5 "info" "q").summary = "No results generated." ∧
    "No results generated." ≠ "" := by
  refine ⟨by decide, rfl, rfl, rfl, by decide⟩

/-- A first model turn presenting a non-empty summary. -/
def respPresent : Response :=
  { content := [.toolUse "p2" "present_results" [("summary", .str "all done")]],
    stop_reason := "tool_use" }

def envPresent : Env :=
  { llm := fun _ => .ok respPresent,
    execRes := fun _ => { success := true, output := "" },
    ask := fun _ => "" }

theorem c8_single_shot_witness :
    (1 ≤ 3 ∧ envPresent.llm 0 = .ok respPresent ∧
      recordedSummary (extract_tool_use respPresent) none = some "all done") ∧
    ((run envPresent 3 "info" "q").state.requestCount = 1 ∧
     (run envPresent 3 "info" "q").summary
       = (if "all done" = "" then "No results generated." else "all done")) :=
  ⟨⟨by omega, rfl, by decide⟩,
   c8_single_shot envPresent 3 "info" "q" respPresent "all done"
     (by omega) rfl (by decide)⟩

theorem loop_rc_mono (env : Env) (maxI : Nat) :
    ∀ fuel iter fs st,
    st.requestCount ≤ (loop env maxI fuel iter fs st).state.requestCount := by
  intro fuel
  induction fuel with
  | zero => intro iter fs st; exact Nat.le_refl _
  | succ fuel ih =>
      intro iter fs st
      rw [loop]
      cases henv : env.llm st.requestCount with
      | error e =>
          show st.requestCount ≤ (pushEvent (preRequest maxI (iter + 1) st) _).requestCount
          simp
      | ok r =>
          dsimp only
          by_cases hc : extract_tool_use r = [] ∧ r.stop_reason = "end_turn"
          · rw [if_pos hc]
            show st.requestCount
              ≤ (noteText _ (preRequest maxI (iter + 1) st)).requestCount
            simp
          · rw [if_neg hc]
            cases hfs : (toolTurn env r fs
                (noteText (extract_text r) (preRequest maxI (iter + 1) st))).1 with
            | some s =>
                show st.requestCount ≤ (toolTurn env r fs _).2.requestCount
                rw [toolTurn_requestCount, noteText_requestCount,
                  preRequest_requestCount]
                omega
            | none =>
                refine Nat.le_trans ?_ (ih _ _ _)
                rw [toolTurn_requestCount, noteText_requestCount,
                  preRequest_requestCount]
                omega

theorem loop_rc_one (env : Env) (maxI : Nat) :
    ∀ fuel iter fs st, 1 ≤ fuel →
    st.requestCount + 1 ≤ (loop env maxI fuel iter fs st).state.requestCount := by
  intro fuel
  cases fuel with
  | zero => intro iter fs st h; omega
  | succ fuel =>
      intro iter fs st _
      rw [loop]
      cases henv : env.llm st.requestCount with
      | error e =>
          show st.requestCount + 1
            ≤ (pushEvent (preRequest maxI (iter + 1) st) _).requestCount
          simp
      | ok r =>
          dsimp only
          by_cases hc : extract_tool_use r = [] ∧ r.stop_reason = "end_turn"
          · rw [if_pos hc]
            show st.requestCount + 1
              ≤ (noteText _ (preRequest maxI (iter + 1) st)).requestCount
            simp
          · rw [if_neg hc]
            cases hfs : (toolTurn env r fs
                (noteText (extract_text r) (preRequest maxI (iter + 1) st))).1 with
            | some s =>
                show st.requestCount + 1 ≤ (toolTurn env r fs _).2.requestCount
                rw [toolTurn_requestCount, noteText_requestCount,
                  preRequest_requestCount]
            | none =>
                refine Nat.le_trans ?_ (loop_rc_mono env maxI fuel _ _ _)
                rw [toolTurn_requestCount, noteText_requestCount,
                  preRequest_requestCount]

/-- C10: a model turn with no tool invocations whose completion signal is
not end_turn does not terminate the run: the loop appends the assistant turn
followed by a user turn holding zero tool results, counts the issued
request, and continues; whenever budget remains, at least one further
reasoning-client request is issued. -/
theorem c10_no_tools_continue (env : Env) (maxI fuel iter : Nat)
    (st : RunState) (r : Response)
    (h : env.llm st.requestCount = .ok r)
    (h2 : extract_tool_use r = [])
    (h3 : r.stop_reason ≠ "end_turn") :
    ∃ st2, loop env maxI (fuel + 1) iter none st
        = loop env maxI fuel (iter + 1) none st2 ∧
      st2.messages = st.messages ++ [.assistantTurn r.content, .userResults []] ∧
      st2.requestCount = st.requestCount + 1 ∧
      (1 ≤ fuel → st.requestCount + 2
        ≤ (loop env maxI fuel (iter + 1) none st2).state.requestCount) := by
  have hloop : loop env maxI (fuel + 1) iter none st
      = loop env maxI fuel (iter + 1) none
          (toolTurn env r none (noteText (extract_text r)
            (preRequest maxI (iter + 1) st))).2 := by
    rw [loop, h]
    dsimp only
    rw [if_neg (fun hcc => h3 hcc.2)]
    simp only [toolTurn_fs, h2]
    rfl
  refine ⟨_, hloop, ?_, ?_, ?_⟩
  · rw [toolTurn_messages, h2]
    simp only [processToolUses]
    rw [noteText_messages, preRequest_messages]
  · rw [toolTurn_requestCount, noteText_requestCount, preRequest_requestCount]
  · intro hf
    have hone := loop_rc_one env maxI fuel (iter + 1) none
      (toolTurn env r none (noteText (extract_text r)
        (preRequest maxI (iter + 1) st))).2 hf
    rw [toolTurn_requestCount, noteText_requestCount,
      preRequest_requestCount] at hone
    omega

/-- A model turn with free text only, cut off before a natural end. -/
def respNoTools : Response :=
  { content := [.text "still thinking"], stop_reason := "max_tokens" }

def envNoTools : Env :=
  { llm := fun _ => .ok respNoTools,
    execRes := fun _ => { success := true, output := "" },
    ask := fun _ => "" }

theorem c10_no_tools_continue_witness :
    (envNoTools.llm (initState "i" "q").requestCount = .ok respNoTools ∧
      extract_tool_use respNoTools = [] ∧
      respNoTools.stop_reason ≠ "end_turn") ∧
    (∃ st2, loop envNoTools 2 (1 + 1) 0 none (initState "i" "q")
        = loop envNoTools 2 1 (0 + 1) none st2 ∧
      st2.messages = (initState "i" "q").messages
        ++ [.assistantTurn respNoTools.content, .userResults []] ∧
      st2.requestCount = (initState "i" "q").requestCount + 1 ∧
      (1 ≤ 1 → (initState "i" "q").requestCount + 2
        ≤ (loop envNoTools 2 1 (0 + 1) none st2).state.requestCount)) := by
  refine ⟨⟨rfl, rfl, by decide⟩, ?_⟩
  exact c10_no_tools_continue envNoTools 2 1 0 (initState "i" "q") respNoTools
    rfl rfl (by decide)

/-- A model that answers immediately with text and a natural end of turn. -/
def respNatural : Response :=
  { content := [.text "answer"], stop_reason := "end_turn" }

def envNatural : Env :=
  { llm := fun _ => .ok respNatural,
    execRes := fun _ => { success := true, output := "" },
    ask := fun _ => "" }

set_option maxRecDepth 8000 in
theorem c1_run_total_witness :
    (run envNatural 3 "i" "q").exitKind = .natural "answer" ∧
    (run envNatural 3 "i" "q").summary
      = (if "answer" = "" then "Analysis complete." else "answer") := by
  have hk : (run envNatural 3 "i" "q").exitKind = .natural "answer" := by decide
  exact ⟨hk, (c1_run_total envNatural 3 "i" "q").2.1 "answer" hk⟩

set_option maxRecDepth 200000 in
theorem c2_protocol_invariant_witness :
    WF (run envExec 2 "i" "q").state.messages ∧
    [Message.userText (initialMessage "i" "q")]
      ∈ (run envExec 2 "i" "q").state.sentConvs ∧
    WF [Message.userText (initialMessage "i" "q")] := by
  have hmem : [Message.userText (initialMessage "i" "q")]
      ∈ (run envExec 2 "i" "q").state.sentConvs := by decide
  exact ⟨(c2_protocol_invariant envExec 2 "i" "q").1, hmem,
    (c2_protocol_invariant envExec 2 "i" "q").2 _ hmem⟩

end DataAgent
